import Mathlib

/-!
# Verification of the json-tree-view algorithmic core

Shallow embedding of the repository's two algorithmic cores and its metrics
pass, translated from the TypeScript source:

* `src/lib/json-parser.ts` — the JSON Schema validator
  (`validateJsonSchema` / `validateAgainstSchema` / `getJsonType`) and the
  metrics walkers (`countNodes`, `getMaxDepth`, `getTypeDistribution`);
* the search engine (`performSearch` in the search-bar component).

Modelling conventions:
* JSON values are the inductive `Json`; JavaScript numbers are modelled as
  rationals (`ℚ`).  Values reaching the validator and the walkers come from
  `JSON.parse`, which never yields `NaN`/`Infinity`, so every modelled number
  is finite and the source's `Number.isFinite` tests are identically true.
  Floating-point rounding is not modelled; no claim below depends on it.
* JavaScript objects are ordered key/value lists (insertion order), as
  produced by `JSON.parse` (unique keys).  Property lookup is first-match.
  The `in` operator consults the prototype chain: `prop in data` holds for
  the object's own keys and for every property inherited from
  `Object.prototype` (see `jsInObj`); reading an inherited property yields a
  host value (a function, or the prototype object itself for `__proto__`)
  that lies outside the JSON data model.
* Schema documents are dynamic `Json` values, read through `Json.get?`,
  mirroring the source's dynamic field probing, including the source's
  JavaScript truthiness guards (`if (schema.minItems && ...)`).
* `String` coercion (`jsToString`), `JSON.stringify` (`stringify`) and
  number printing (`jsNumToString`) are modelled faithfully for the values
  the claims exercise; decimal formatting of non-integer numbers and the
  `\uXXXX` escapes of rare control characters are approximated, as noted at
  each definition.
* The host regular-expression engine, URL parser and date parser used by the
  `pattern` and `format` checks are host facilities, not repository code;
  they are modelled as total stand-in predicates (see `jsRegexTest?`,
  `formatValidator?`).  No claim depends on their verdicts, only on the
  guard structure of those checks.
-/

/-- JSON values (`src/lib/json-parser.ts` operates on the output of
`JSON.parse`): null, booleans, numbers, strings, arrays, objects.
Objects keep insertion order, as JavaScript objects do. -/
inductive Json where
  | null : Json
  | bool : Bool → Json
  | num : ℚ → Json
  | str : String → Json
  | arr : List Json → Json
  | obj : List (String × Json) → Json

/-- Dynamic property read `j[k]` on a parsed JSON value: first binding of the
key in an object, `undefined` (`none`) otherwise. -/
def Json.get? : Json → String → Option Json
  | .obj kvs, k => (kvs.find? (fun p => p.1 == k)).map Prod.snd
  | _, _ => none

/-- JavaScript truthiness of a parsed JSON value (`undefined` is handled by
the callers via `Option`): `null`, `false`, `0` and `""` are falsy; every
array and object is truthy. -/
def truthyJson : Json → Bool
  | .null => false
  | .bool b => b
  | .num q => q != 0
  | .str s => s != ""
  | .arr _ => true
  | .obj _ => true

/-- JavaScript number printing for the numbers the claims exercise:
integer-valued numbers print as their integer (`String(1) = "1"`); the
decimal formatting of non-integer numbers is approximated by the rational's
representation (message text only, no claim depends on it). -/
def jsNumToString (q : ℚ) : String :=
  if q.den == 1 then toString q.num else toString q

/-- `ToNumber` coercion applied by the source's relational comparisons when a
schema field holds a non-number: `null ↦ 0`, booleans to `0`/`1`, `"" ↦ 0`.
`none` stands for `NaN` (every comparison against it is false); non-empty
strings, arrays and objects are mapped to `NaN` — numeric string contents
are not parsed, which only affects schemas outside every claim. -/
def jsToNumber? : Json → Option ℚ
  | .null => some 0
  | .bool b => some (if b then 1 else 0)
  | .num q => some q
  | .str s => if s == "" then some 0 else none
  | .arr _ => none
  | .obj _ => none

theorem sizeOf_lt_of_mem_list {xs : List Json} {x : Json} (h : x ∈ xs) :
    sizeOf x < sizeOf xs := by
  induction h with
  | head as => simp; omega
  | tail b hmem ih => simp; omega

theorem sizeOf_lt_of_mem_arr {xs : List Json} {x : Json} (h : x ∈ xs) :
    sizeOf x < sizeOf (Json.arr xs) := by
  have := sizeOf_lt_of_mem_list h
  simp
  omega

theorem sizeOf_snd_lt_of_mem_list {kvs : List (String × Json)}
    {p : String × Json} (h : p ∈ kvs) : sizeOf p.2 < sizeOf kvs := by
  obtain ⟨a, b⟩ := p
  induction h with
  | head as => simp; omega
  | tail q hmem ih => simp at ih ⊢; omega

theorem sizeOf_snd_lt_of_mem_obj {kvs : List (String × Json)}
    {p : String × Json} (h : p ∈ kvs) : sizeOf p.2 < sizeOf (Json.obj kvs) := by
  have := sizeOf_snd_lt_of_mem_list h
  simp
  omega

theorem sizeOf_get?_lt : ∀ (j v : Json) (k : String),
    j.get? k = some v → sizeOf v < sizeOf j
  | .obj kvs, v, k, h => by
    simp only [Json.get?, Option.map_eq_some'] at h
    obtain ⟨p, hp, hv⟩ := h
    have hmem := List.mem_of_find?_eq_some hp
    subst hv
    exact sizeOf_snd_lt_of_mem_obj hmem
  | .null, _, _, h => by simp [Json.get?] at h
  | .bool _, _, _, h => by simp [Json.get?] at h
  | .num _, _, _, h => by simp [Json.get?] at h
  | .str _, _, _, h => by simp [Json.get?] at h
  | .arr _, _, _, h => by simp [Json.get?] at h

/-- `String(value)` coercion: `null ↦ "null"`, booleans/numbers/strings as in
JavaScript, arrays join their elements with `","` (with `null` elements
printing empty, per `Array.prototype.toString`), objects print
`"[object Object]"`. -/
def jsToString (j : Json) : String :=
  match j with
  | .null => "null"
  | .bool b => cond b "true" "false"
  | .num q => jsNumToString q
  | .str s => s
  | .arr xs => String.intercalate ","
      (xs.attach.map (fun x =>
        match x.1 with
        | .null => ""
        | _ => jsToString x.1))
  | .obj _ => "[object Object]"
termination_by sizeOf j
decreasing_by all_goals exact sizeOf_lt_of_mem_arr x.2

/-- JSON string-literal escaping used by `JSON.stringify`: quotes,
backslashes and the common control characters; the `\uXXXX` escapes of other
control characters are not modelled (no claim uses them). -/
def escapeJsonString (s : String) : String :=
  s.data.foldl (fun acc c =>
    if c = '"' then acc ++ "\\\""
    else if c = '\\' then acc ++ "\\\\"
    else if c = '\n' then acc ++ "\\n"
    else if c = '\t' then acc ++ "\\t"
    else if c = '\r' then acc ++ "\\r"
    else acc.push c) ""

/-- `JSON.stringify` on parsed JSON values, the serialization the validator
uses for its `enum`/`const`/`uniqueItems` comparisons.  Object members are
emitted in insertion order — serialization is order-sensitive. -/
def stringify (j : Json) : String :=
  match j with
  | .null => "null"
  | .bool b => cond b "true" "false"
  | .num q => jsNumToString q
  | .str s => "\"" ++ escapeJsonString s ++ "\""
  | .arr xs =>
      "[" ++ String.intercalate "," (xs.attach.map (fun x => stringify x.1)) ++ "]"
  | .obj kvs =>
      "\x7b" ++ String.intercalate ","
        (kvs.attach.map (fun p =>
          "\"" ++ escapeJsonString p.1.1 ++ "\":" ++ stringify p.1.2)) ++ "\x7d"
termination_by sizeOf j
decreasing_by
  all_goals first
  | exact sizeOf_lt_of_mem_arr x.2
  | exact sizeOf_snd_lt_of_mem_obj p.2

/-- A validation error (`ValidationError` in `src/lib/json-parser.ts`):
`value = none` models the source's `value: undefined` on missing-property
errors. -/
structure VError where
  path : String
  message : String
  value : Option Json

/-- `getJsonType` from `src/lib/json-parser.ts`: `null`/`array` first, then
numbers split into `"integer"`/`"number"` (every modelled number is finite),
otherwise JavaScript `typeof` (`"boolean"`, `"string"`, `"object"`). -/
def getJsonType : Json → String
  | .null => "null"
  | .arr _ => "array"
  | .num q => if q.den == 1 then "integer" else "number"
  | .bool _ => "boolean"
  | .str _ => "string"
  | .obj _ => "object"

/-- Child path `path ? `${path}.${prop}` : prop`. -/
def childPath (path prop : String) : String :=
  if path == "" then prop else path ++ "." ++ prop

/-- The `schema.type` block of `validateAgainstSchema`: special branches for
`"integer"` (numeric, integral; the finiteness test is identically true on
modelled numbers) and `"number"` (numeric; finite likewise), strict
(`===`/`!==`) comparison with `getJsonType` otherwise, so a non-string
`type` value never equals the computed type string. -/
def typeCheckErr (data t : Json) (path : String) : Option VError :=
  match t with
  | .str "integer" =>
    match data with
    | .num q =>
        if q.den == 1 then none
        else some ⟨path, "Expected integer, got decimal number " ++ jsNumToString q, some data⟩
    | _ => some ⟨path, "Expected integer, got " ++ getJsonType data, some data⟩
  | .str "number" =>
    match data with
    | .num _ => none
    | _ => some ⟨path, "Expected number, got " ++ getJsonType data, some data⟩
  | .str s =>
    if getJsonType data == s then none
    else some ⟨path, "Expected type " ++ s ++ ", got " ++ getJsonType data, some data⟩
  | _ => some ⟨path, "Expected type " ++ jsToString t ++ ", got " ++ getJsonType data, some data⟩

/-- The leading `if (schema.type)` dispatch: the type block only runs when
the `type` field is present and truthy. -/
def typeBlock (data schema : Json) (path : String) : Option VError :=
  match schema.get? "type" with
  | some t => if truthyJson t then typeCheckErr data t path else none
  | none => none

/-- The property names every plain object produced by `JSON.parse` inherits
from `Object.prototype` (its prototype; the chain ends there).  JavaScript's
`in` operator reports each of these present on every such object. -/
def objectPrototypeKeys : List String :=
  ["constructor", "hasOwnProperty", "isPrototypeOf", "propertyIsEnumerable",
   "toLocaleString", "toString", "valueOf", "__proto__",
   "__defineGetter__", "__defineSetter__", "__lookupGetter__",
   "__lookupSetter__"]

/-- JavaScript's `prop in data` on a parsed JSON object: true for the
object's own keys and for the properties inherited from
`Object.prototype`. -/
def jsInObj (kvs : List (String × Json)) (prop : String) : Bool :=
  kvs.any (fun p => p.1 == prop) || objectPrototypeKeys.contains prop

/-- The `required` block: guarded by `schema.required` being an array and
the value being a plain object; each listed name for which `prop in data`
fails yields one missing-property error (with `value = undefined`).  The
`in` test sees inherited `Object.prototype` properties, so names such as
`"toString"` are never reported missing.  List entries pass through
`String` coercion, as the `in` operator does. -/
def requiredCheck (data schema : Json) (path : String) : List VError :=
  match schema.get? "required" with
  | some (.arr reqs) =>
    match data with
    | .obj kvs =>
        reqs.filterMap (fun r =>
          if jsInObj kvs (jsToString r) then none
          else some ⟨childPath path (jsToString r),
                 "Missing required property: " ++ jsToString r, none⟩)
    | _ => []
  | _ => []

/-- The `additionalProperties === false` sub-block of the `properties`
block: every key of the value not declared in `properties` is reported. -/
def additionalPropsCheck (kvs props : List (String × Json)) (schema : Json)
    (path : String) : List VError :=
  match schema.get? "additionalProperties" with
  | some (.bool false) =>
      kvs.filterMap (fun p =>
        if props.any (fun q => q.1 == p.1) then none
        else some ⟨childPath path p.1, "Additional property not allowed: " ++ p.1, some p.2⟩)
  | _ => []

/-- The `uniqueItems` duplicate scan: indices whose `JSON.stringify` form was
already seen, in order (the source's `Set` iterates in insertion order). -/
def dupIndices : List Json → List String → Nat → List Nat
  | [], _, _ => []
  | x :: rest, seen, i =>
    let s := stringify x
    if seen.contains s then i :: dupIndices rest seen (i + 1)
    else dupIndices rest (s :: seen) (i + 1)

/-- The array-length/uniqueness block, guarded only by the value being an
array.  `minItems`/`maxItems` sit behind JavaScript truthiness guards
(`schema.minItems && ...`), so a present value of `0` disables the check;
`uniqueItems` requires the literal `true`. -/
def arrayChecks (xs : List Json) (schema : Json) (path : String) : List VError :=
  (match schema.get? "minItems" with
   | some m =>
     if truthyJson m then
       match jsToNumber? m with
       | some q =>
         if (xs.length : ℚ) < q then
           [⟨path, "Array too short. Minimum items: " ++ jsToString m ++ ", got "
              ++ toString xs.length, some (.arr xs)⟩]
         else []
       | none => []
     else []
   | none => [])
  ++ (match schema.get? "maxItems" with
   | some m =>
     if truthyJson m then
       match jsToNumber? m with
       | some q =>
         if (xs.length : ℚ) > q then
           [⟨path, "Array too long. Maximum items: " ++ jsToString m ++ ", got "
              ++ toString xs.length, some (.arr xs)⟩]
         else []
       | none => []
     else []
   | none => [])
  ++ (match schema.get? "uniqueItems" with
   | some (.bool true) =>
     let dups := dupIndices xs [] 0
     if dups.isEmpty then []
     else
       [⟨path, "Array items must be unique. Duplicate items at indices: "
          ++ String.intercalate ", " (dups.map toString), some (.arr xs)⟩]
   | _ => [])

/-- Stand-in for the host regular-expression engine (`new RegExp` +
`RegExp.test`): modelled as a total substring test that always compiles
(`none` would model a `RegExp` constructor throw).  No claim depends on the
verdict of this predicate, only on the guard structure around it. -/
def jsRegexTest? (pat s : String) : Option Bool :=
  some ((List.range (s.length + 1)).any
    (fun i => pat.toList.isPrefixOf (s.toList.drop i)))

/-- The five built-in `format` predicates.  `email` follows the source's
regular expression `/^[^\s@]+@[^\s@]+\.[^\s@]+$/`; `uri`, `date`,
`date-time` and `uuid` delegate to host facilities (URL parser, date
parser) and are modelled as shape-level stand-ins.  Unknown names map to
`none` (silently accepted), exactly as in the source's lookup table. -/
def formatValidator? (name : String) : Option (String → Bool) :=
  if name == "email" then
    some (fun s =>
      match s.splitOn "@" with
      | [l, d] =>
          l != "" && !(l.any (fun c => c.isWhitespace))
          && !(d.any (fun c => c.isWhitespace))
          && decide (2 ≤ (d.splitOn ".").length)
          && (d.splitOn ".").all (fun t => t != "")
      | _ => false)
  else if name == "uri" then some (fun s => decide (2 ≤ (s.splitOn "://").length))
  else if name == "date" then
    some (fun s =>
      match s.splitOn "-" with
      | [y, m, d] => y.length == 4 && m.length == 2 && d.length == 2
          && (y ++ m ++ d).all Char.isDigit
      | _ => false)
  else if name == "date-time" then some (fun s => s.any Char.isDigit)
  else if name == "uuid" then
    some (fun s =>
      match s.splitOn "-" with
      | [a, b, c, d, e] =>
          a.length == 8 && b.length == 4 && c.length == 4 && d.length == 4
          && e.length == 12
          && (a ++ b ++ c ++ d ++ e).all (fun ch =>
               ch.isDigit || (('a' ≤ ch && ch ≤ 'f') || ('A' ≤ ch && ch ≤ 'F')))
      | _ => false)
  else none

/-- The string-constraint block, guarded only by the value being a string:
`minLength`/`maxLength` behind presence (`!== undefined`) guards, `pattern`
and `format` behind truthiness guards.  String length is code points here
versus UTF-16 units in JavaScript — identical on the ASCII data of every
claim. -/
def stringChecks (s : String) (schema : Json) (path : String) : List VError :=
  (match schema.get? "minLength" with
   | some m =>
     match jsToNumber? m with
     | some q =>
       if (s.length : ℚ) < q then
         [⟨path, "String too short. Minimum length: " ++ jsToString m ++ ", got "
            ++ toString s.length, some (.str s)⟩]
       else []
     | none => []
   | none => [])
  ++ (match schema.get? "maxLength" with
   | some m =>
     match jsToNumber? m with
     | some q =>
       if (s.length : ℚ) > q then
         [⟨path, "String too long. Maximum length: " ++ jsToString m ++ ", got "
            ++ toString s.length, some (.str s)⟩]
       else []
     | none => []
   | none => [])
  ++ (match schema.get? "pattern" with
   | some pat =>
     if truthyJson pat then
       let pstr := jsToString pat
       match jsRegexTest? pstr s with
       | some true => []
       | some false => [⟨path, "String does not match pattern: " ++ pstr, some (.str s)⟩]
       | none => [⟨path, "Invalid regex pattern: " ++ pstr, some pat⟩]
     else []
   | none => [])
  ++ (match schema.get? "format" with
   | some f =>
     if truthyJson f then
       match formatValidator? (jsToString f) with
       | some check =>
         if check s then []
         else [⟨path, "String does not match format: " ++ jsToString f, some (.str s)⟩]
       | none => []
     else []
   | none => [])

/-- The numeric-constraint block, guarded by the value being a (finite)
number: `minimum`/`maximum` inclusive, `exclusiveMinimum`/`exclusiveMaximum`
strict, all behind presence guards; `multipleOf` additionally requires a
positive bound and tests integrality of the exact rational quotient. -/
def numberChecks (q : ℚ) (schema : Json) (path : String) : List VError :=
  (match schema.get? "minimum" with
   | some m =>
     match jsToNumber? m with
     | some mv =>
       if q < mv then
         [⟨path, "Number too small. Minimum: " ++ jsToString m ++ ", got "
            ++ jsNumToString q, some (.num q)⟩]
       else []
     | none => []
   | none => [])
  ++ (match schema.get? "maximum" with
   | some m =>
     match jsToNumber? m with
     | some mv =>
       if q > mv then
         [⟨path, "Number too large. Maximum: " ++ jsToString m ++ ", got "
            ++ jsNumToString q, some (.num q)⟩]
       else []
     | none => []
   | none => [])
  ++ (match schema.get? "exclusiveMinimum" with
   | some m =>
     match jsToNumber? m with
     | some mv =>
       if q ≤ mv then
         [⟨path, "Number must be greater than " ++ jsToString m ++ ", got "
            ++ jsNumToString q, some (.num q)⟩]
       else []
     | none => []
   | none => [])
  ++ (match schema.get? "exclusiveMaximum" with
   | some m =>
     match jsToNumber? m with
     | some mv =>
       if q ≥ mv then
         [⟨path, "Number must be less than " ++ jsToString m ++ ", got "
            ++ jsNumToString q, some (.num q)⟩]
       else []
     | none => []
   | none => [])
  ++ (match schema.get? "multipleOf" with
   | some m =>
     match jsToNumber? m with
     | some mv =>
       if 0 < mv then
         if (q / mv).den == 1 then []
         else
           [⟨path, "Number must be a multiple of " ++ jsToString m ++ ", got "
              ++ jsNumToString q, some (.num q)⟩]
       else []
     | none => []
   | none => [])

/-- The `enum` block: the value must `JSON.stringify`-equal one candidate. -/
def enumCheck (data schema : Json) (path : String) : List VError :=
  match schema.get? "enum" with
  | some (.arr vs) =>
      let dataStr := stringify data
      if vs.any (fun v => stringify v == dataStr) then []
      else
        [⟨path, "Value must be one of: " ++ String.intercalate ", " (vs.map stringify)
           ++ ". Got: " ++ dataStr, some data⟩]
  | _ => []

/-- The `const` block (`schema.const !== undefined`): the value must
`JSON.stringify`-equal the constant. -/
def constCheck (data schema : Json) (path : String) : List VError :=
  match schema.get? "const" with
  | some c =>
      if stringify data == stringify c then []
      else
        [⟨path, "Value must be exactly: " ++ stringify c ++ ". Got: "
           ++ stringify data, some data⟩]
  | none => []

/-- The array-constraint block as dispatched on the value's shape
(`if (Array.isArray(data))`). -/
def arrayBlock (data schema : Json) (path : String) : List VError :=
  match data with
  | .arr xs => arrayChecks xs schema path
  | _ => []

/-- The string-constraint block as dispatched on the value's shape
(`if (typeof data === "string")`). -/
def stringBlock (data schema : Json) (path : String) : List VError :=
  match data with
  | .str s => stringChecks s schema path
  | _ => []

/-- The numeric-constraint block as dispatched on the value's shape
(`if (typeof data === "number" && Number.isFinite(data))`). -/
def numberBlock (data schema : Json) (path : String) : List VError :=
  match data with
  | .num q => numberChecks q schema path
  | _ => []

mutual

/-- `validateAgainstSchema` from `src/lib/json-parser.ts`, translated block
by block in source order; the recursive blocks (`properties`, `items`,
`oneOf`, `anyOf`, `allOf`) are split into mutually recursive helpers, one
per source block.  The source appends to a shared error array; this
embedding returns the list of errors the call appends, in append order, so
the caller's array evolves as `errors ++ result`.  A failing `type` check
pushes one error and returns early, skipping every later block.  The
`oneOf`/`anyOf` sub-runs use isolated error lists (`subErrors`), which is
exactly this embedding's return value. -/
def validateAgainstSchema (data schema : Json) (path : String) : List VError :=
  match typeBlock data schema path with
  | some e => [e]
  | none =>
    requiredCheck data schema path
    ++ propertiesBlock data schema path
    ++ itemsBlock data schema path
    ++ arrayBlock data schema path
    ++ stringBlock data schema path
    ++ numberBlock data schema path
    ++ enumCheck data schema path
    ++ constCheck data schema path
    ++ oneOfBlock data schema path
    ++ anyOfBlock data schema path
    ++ allOfBlock data schema path
termination_by (sizeOf schema, 2)
decreasing_by
  all_goals exact Prod.Lex.right _ (by omega)

/-- The `properties` block: for each declared property present in the
(plain-object) value, recurse into the property schema; then the
`additionalProperties === false` scan.  The source's presence test is
`prop in data`, which also holds for `Object.prototype` names; in that case
(a declared property named e.g. `"toString"` with no own key) the source
recurses into the inherited HOST value — a function, outside the JSON data
model — which this embedding models as contributing no errors (own-key
lookup only).  No claim exercises a schema declaring a prototype-named
property. -/
def propertiesBlock (data schema : Json) (path : String) : List VError :=
  match data with
  | .obj kvs =>
    match hp : schema.get? "properties" with
    | some (.obj props) =>
        (props.attach.flatMap (fun pp =>
          match (Json.obj kvs).get? pp.1.1 with
          | some dv => validateAgainstSchema dv pp.1.2 (childPath path pp.1.1)
          | none => []))
        ++ additionalPropsCheck kvs props schema path
    | _ => []
  | _ => []
termination_by (sizeOf schema, 1)
decreasing_by
  exact Prod.Lex.left _ _ (by
    calc sizeOf pp.1.2 < sizeOf (Json.obj props) := sizeOf_snd_lt_of_mem_obj pp.2
      _ < sizeOf schema := sizeOf_get?_lt _ _ _ hp)

/-- The `items` block: recurse into every element of an array value with
the `items` schema, using `path[i]` pointer syntax. -/
def itemsBlock (data schema : Json) (path : String) : List VError :=
  match data with
  | .arr xs =>
    match hi : schema.get? "items" with
    | some itemsSchema =>
        if truthyJson itemsSchema then
          xs.enum.flatMap (fun p =>
            validateAgainstSchema p.2 itemsSchema (path ++ "[" ++ toString p.1 ++ "]"))
        else []
    | none => []
  | _ => []
termination_by (sizeOf schema, 1)
decreasing_by
  exact Prod.Lex.left _ _ (sizeOf_get?_lt _ _ _ hi)

/-- Number of `oneOf`/`anyOf` subschemas whose isolated run returns no
errors (`subErrors.length === 0`). -/
def matchedCount (data : Json) (subs : List Json) (path : String) : Nat :=
  (subs.attach.filter
    (fun sp => (validateAgainstSchema data sp.1 path).length == 0)).length
termination_by (sizeOf (Json.arr subs), 1)
decreasing_by
  exact Prod.Lex.left _ _ (sizeOf_lt_of_mem_arr sp.2)

/-- The `oneOf` block: exactly one subschema must match. -/
def oneOfBlock (data schema : Json) (path : String) : List VError :=
  match ho : schema.get? "oneOf" with
  | some (.arr subs) =>
      if matchedCount data subs path == 1 then []
      else [⟨path, "Data must match exactly one schema. Matched "
              ++ toString (matchedCount data subs path) ++ " schemas.", some data⟩]
  | _ => []
termination_by (sizeOf schema, 1)
decreasing_by
  all_goals exact Prod.Lex.left _ _ (sizeOf_get?_lt _ _ _ ho)

/-- The `anyOf` block: at least one subschema must match. -/
def anyOfBlock (data schema : Json) (path : String) : List VError :=
  match ha : schema.get? "anyOf" with
  | some (.arr subs) =>
      if matchedCount data subs path == 0 then
        [⟨path, "Data must match at least one schema. Matched 0 schemas.", some data⟩]
      else []
  | _ => []
termination_by (sizeOf schema, 1)
decreasing_by
  exact Prod.Lex.left _ _ (sizeOf_get?_lt _ _ _ ha)

/-- The `allOf` block: every subschema is validated at the same value and
path, its errors appended directly to the shared list. -/
def allOfBlock (data schema : Json) (path : String) : List VError :=
  match hl : schema.get? "allOf" with
  | some (.arr subs) =>
      subs.attach.flatMap (fun sp => validateAgainstSchema data sp.1 path)
  | _ => []
termination_by (sizeOf schema, 1)
decreasing_by
  exact Prod.Lex.left _ _ (by
    calc sizeOf sp.1 < sizeOf (Json.arr subs) := sizeOf_lt_of_mem_arr sp.2
      _ < sizeOf schema := sizeOf_get?_lt _ _ _ hl)

end

/-- `String.prototype.toLowerCase`, character-wise (faithful on the ASCII
data of every claim; locale-independent Unicode lowering beyond
`Char.toLower` is not modelled). -/
def jsToLower (s : String) : String := String.mk (s.data.map Char.toLower)

/-- The conditional `caseSensitive ? s : s.toLowerCase()` used on the term,
each key and each value string form. -/
def normCase (cs : Bool) (s : String) : String := if cs then s else jsToLower s

/-- `String.prototype.includes`: substring containment. -/
def strIncludes (hay needle : String) : Bool :=
  (List.range (hay.length + 1)).any
    (fun i => needle.toList.isPrefixOf (hay.toList.drop i))

/-- Kind of a search hit (`type: "key" | "value"` in the search bar). -/
inductive ResKind where
  | key : ResKind
  | value : ResKind
deriving DecidableEq, Repr

/-- A search hit (`SearchResult` in the search-bar component). -/
structure SearchResult where
  path : String
  type : ResKind
  text : String
  position : Nat
deriving DecidableEq, Repr

theorem sum_map_sizeOf_lt_list (xs : List Json) :
    (xs.map sizeOf).sum < sizeOf xs := by
  induction xs with
  | nil => simp
  | cons x l ih => simp at ih ⊢; omega

theorem sum_map_sizeOf_lt_arr (xs : List Json) :
    (xs.map sizeOf).sum < sizeOf (Json.arr xs) := by
  have := sum_map_sizeOf_lt_list xs
  simp
  omega

theorem sum_map_sizeOf_snd_lt_list (kvs : List (String × Json)) :
    (kvs.map (fun p => sizeOf p.2)).sum < sizeOf kvs := by
  induction kvs with
  | nil => simp
  | cons p l ih =>
    obtain ⟨a, b⟩ := p
    simp at ih ⊢
    omega

theorem sum_map_sizeOf_snd_lt_obj (kvs : List (String × Json)) :
    (kvs.map (fun p => sizeOf p.2)).sum < sizeOf (Json.obj kvs) := by
  have := sum_map_sizeOf_snd_lt_list kvs
  simp
  omega

theorem sizeOf_json_pos (v : Json) : 0 < sizeOf v := by
  cases v <;> simp <;> omega

/-- The stack-based depth-first loop of `performSearch` (search bar
component): the stack is a list with its head as the top (`pop` takes the
head); pushing a batch of children in forward order therefore prepends the
reversed batch.  Object keys containing the (case-normalized) term emit a
`key` hit during the push loop, positions being assigned from the current
hit count; primitives whose `String` form contains the term emit a `value`
hit.  The source's identity-based `visited` guard never fires on tree-shaped
parsed values and is not modelled. -/
def searchLoop (cs : Bool) (searchTerm : String) :
    List (Json × List String) → List SearchResult → List SearchResult
  | [], results => results
  | (v, currentPath) :: rest, results =>
    match v with
    | .arr xs =>
        searchLoop cs searchTerm
          ((xs.enum.map (fun p => (p.2, currentPath ++ [toString p.1]))).reverse ++ rest)
          results
    | .obj kvs =>
        let newResults := kvs.foldl (fun res p =>
          if strIncludes (normCase cs p.1) searchTerm then
            res ++ [⟨String.intercalate "." (currentPath ++ [p.1]), .key, p.1, res.length⟩]
          else res) results
        searchLoop cs searchTerm
          ((kvs.map (fun p => (p.2, currentPath ++ [p.1]))).reverse ++ rest)
          newResults
    | prim =>
        if strIncludes (normCase cs (jsToString prim)) searchTerm then
          searchLoop cs searchTerm rest
            (results ++ [⟨String.intercalate "." currentPath, .value, jsToString prim,
               results.length⟩])
        else searchLoop cs searchTerm rest results
termination_by st _ => (st.map (fun p => sizeOf p.1)).sum
decreasing_by
  all_goals
    simp only [List.map_append, List.map_reverse, List.map_map, List.sum_append,
      List.sum_reverse, List.map_cons, List.sum_cons]
  · have h2 : ((fun (p : Json × List String) => sizeOf p.1)
        ∘ fun (p : ℕ × Json) => (p.2, currentPath ++ [toString p.1]))
        = (sizeOf ∘ (Prod.snd : ℕ × Json → Json)) := rfl
    rw [h2, ← List.map_map]
    have h4 : xs.enum.map Prod.snd = xs := by
      simp [List.enum, List.enumFrom_map_snd]
    rw [h4]
    have := sum_map_sizeOf_lt_arr xs
    omega
  · have h2 : ((fun (p : Json × List String) => sizeOf p.1)
        ∘ fun (p : String × Json) => (p.2, currentPath ++ [p.1]))
        = (fun (p : String × Json) => sizeOf p.2) := rfl
    rw [h2]
    have := sum_map_sizeOf_snd_lt_obj kvs
    omega
  · have := sizeOf_json_pos prim
    omega
  · have := sizeOf_json_pos prim
    omega

/-- `performSearch(term, data)` from the search bar: empty terms are a
no-op; otherwise the term is lower-cased unless the search is
case-sensitive and the stack traversal starts at the root with an empty
path accumulator and an empty result list. -/
def performSearch (term : String) (data : Json) (caseSensitive : Bool) :
    List SearchResult :=
  if term == "" then []
  else searchLoop caseSensitive (normCase caseSensitive term) [(data, [])] []

/-- `countNodes` loop from `src/lib/json-parser.ts`: each popped node counts
once; containers push all their children (array elements, object values). -/
def countLoop : List Json → Nat → Nat
  | [], n => n
  | v :: rest, n =>
    match v with
    | .arr xs => countLoop (xs.reverse ++ rest) (n + 1)
    | .obj kvs => countLoop ((kvs.map (fun p => p.2)).reverse ++ rest) (n + 1)
    | other => countLoop rest (n + 1)
termination_by st _ => (st.map sizeOf).sum
decreasing_by
  all_goals
    simp only [List.map_append, List.map_reverse, List.map_map, List.sum_append,
      List.sum_reverse, List.map_cons, List.sum_cons]
  · have := sum_map_sizeOf_lt_arr xs
    omega
  · have h2 : ((sizeOf : Json → ℕ) ∘ fun (p : String × Json) => p.2)
        = (fun (p : String × Json) => sizeOf p.2) := rfl
    rw [h2]
    have := sum_map_sizeOf_snd_lt_obj kvs
    omega
  · have := sizeOf_json_pos prim
    omega

/-- `countNodes(data)`: total number of nodes in the value. -/
def countNodes (j : Json) : Nat := countLoop [j] 0

/-- `getMaxDepth` loop: tracks the greatest depth popped; children are
pushed at depth + 1. -/
def depthLoop : List (Json × Nat) → Nat → Nat
  | [], m => m
  | (v, d) :: rest, m =>
    match v with
    | .arr xs => depthLoop ((xs.map (fun x => (x, d + 1))).reverse ++ rest) (max m d)
    | .obj kvs => depthLoop ((kvs.map (fun p => (p.2, d + 1))).reverse ++ rest) (max m d)
    | other => depthLoop rest (max m d)
termination_by st _ => (st.map (fun p => sizeOf p.1)).sum
decreasing_by
  all_goals
    simp only [List.map_append, List.map_reverse, List.map_map, List.sum_append,
      List.sum_reverse, List.map_cons, List.sum_cons]
  · have h2 : ((fun (p : Json × Nat) => sizeOf p.1) ∘ fun (x : Json) => (x, d + 1))
        = (sizeOf : Json → ℕ) := rfl
    rw [h2]
    have := sum_map_sizeOf_lt_arr xs
    omega
  · have h2 : ((fun (p : Json × Nat) => sizeOf p.1) ∘ fun (p : String × Json) => (p.2, d + 1))
        = (fun (p : String × Json) => sizeOf p.2) := rfl
    rw [h2]
    have := sum_map_sizeOf_snd_lt_obj kvs
    omega
  · have := sizeOf_json_pos prim
    omega

/-- `getMaxDepth(data)`: root is depth 0. -/
def getMaxDepth (j : Json) : Nat := depthLoop [(j, 0)] 0

/-- The type tag computed inside `getTypeDistribution`:
`current === null ? "null" : Array.isArray(current) ? "array" : typeof current`. -/
def jsTypeOf : Json → String
  | .null => "null"
  | .arr _ => "array"
  | .obj _ => "object"
  | .bool _ => "boolean"
  | .num _ => "number"
  | .str _ => "string"

/-- `distribution[type] = (distribution[type] || 0) + 1` on a JavaScript
object modelled as an insertion-ordered association list: the existing entry
is incremented in place, a new key is appended. -/
def bump : List (String × Nat) → String → List (String × Nat)
  | [], k => [(k, 1)]
  | p :: rest, k =>
    if p.1 == k then (p.1, p.2 + 1) :: rest else p :: bump rest k

/-- `getTypeDistribution` loop: same traversal as `countLoop`, bumping the
tag of every popped node. -/
def distLoop : List Json → List (String × Nat) → List (String × Nat)
  | [], dist => dist
  | v :: rest, dist =>
    match v with
    | .arr xs => distLoop (xs.reverse ++ rest) (bump dist (jsTypeOf (Json.arr xs)))
    | .obj kvs => distLoop ((kvs.map (fun p => p.2)).reverse ++ rest) (bump dist (jsTypeOf (Json.obj kvs)))
    | other => distLoop rest (bump dist (jsTypeOf other))
termination_by st _ => (st.map sizeOf).sum
decreasing_by
  all_goals
    simp only [List.map_append, List.map_reverse, List.map_map, List.sum_append,
      List.sum_reverse, List.map_cons, List.sum_cons]
  · have := sum_map_sizeOf_lt_arr xs
    omega
  · have h2 : ((sizeOf : Json → ℕ) ∘ fun (p : String × Json) => p.2)
        = (fun (p : String × Json) => sizeOf p.2) := rfl
    rw [h2]
    have := sum_map_sizeOf_snd_lt_obj kvs
    omega
  · have := sizeOf_json_pos prim
    omega

/-- `getTypeDistribution(data)` as an ordered association list. -/
def getTypeDistribution (j : Json) : List (String × Nat) := distLoop [j] []

/-- Sum of the per-type counts of a distribution. -/
def distSum (d : List (String × Nat)) : Nat := (d.map (fun p => p.2)).sum

theorem matchedCount_eq_filter (data : Json) (subs : List Json) (path : String) :
    matchedCount data subs path
      = (subs.filter (fun s => (validateAgainstSchema data s path).length == 0)).length := by
  rw [matchedCount, ← List.countP_eq_length_filter, ← List.countP_eq_length_filter]
  exact List.countP_attach subs (fun s => (validateAgainstSchema data s path).length == 0)


theorem validate_eq_blocks (data schema : Json) (path : String)
    (h : typeBlock data schema path = none) :
    validateAgainstSchema data schema path
      = requiredCheck data schema path
        ++ propertiesBlock data schema path
        ++ itemsBlock data schema path
        ++ arrayBlock data schema path
        ++ stringBlock data schema path
        ++ numberBlock data schema path
        ++ enumCheck data schema path
        ++ constCheck data schema path
        ++ oneOfBlock data schema path
        ++ anyOfBlock data schema path
        ++ allOfBlock data schema path := by
  revert h
  cases data <;> intro h <;> simp only [validateAgainstSchema, h]

theorem requiredCheck_no_field (data schema : Json) (path : String)
    (h : schema.get? "required" = none) : requiredCheck data schema path = [] := by
  simp [requiredCheck, h]

theorem propertiesBlock_no_field (data schema : Json) (path : String)
    (h : schema.get? "properties" = none) : propertiesBlock data schema path = [] := by
  revert h
  cases data <;> intro h <;> simp [propertiesBlock, h]

theorem itemsBlock_no_field (data schema : Json) (path : String)
    (h : schema.get? "items" = none) : itemsBlock data schema path = [] := by
  cases data <;> simp only [itemsBlock] <;> split <;> simp_all

theorem arrayBlock_no_fields (data schema : Json) (path : String)
    (h1 : schema.get? "minItems" = none) (h2 : schema.get? "maxItems" = none)
    (h3 : schema.get? "uniqueItems" = none) : arrayBlock data schema path = [] := by
  cases data <;> simp [arrayBlock, arrayChecks, h1, h2, h3]

theorem stringBlock_no_fields (data schema : Json) (path : String)
    (h1 : schema.get? "minLength" = none) (h2 : schema.get? "maxLength" = none)
    (h3 : schema.get? "pattern" = none) (h4 : schema.get? "format" = none) :
    stringBlock data schema path = [] := by
  cases data <;> simp [stringBlock, stringChecks, h1, h2, h3, h4]

theorem numberBlock_no_fields (data schema : Json) (path : String)
    (h1 : schema.get? "minimum" = none) (h2 : schema.get? "maximum" = none)
    (h3 : schema.get? "exclusiveMinimum" = none)
    (h4 : schema.get? "exclusiveMaximum" = none)
    (h5 : schema.get? "multipleOf" = none) : numberBlock data schema path = [] := by
  cases data <;> simp [numberBlock, numberChecks, h1, h2, h3, h4, h5]

theorem enumCheck_no_field (data schema : Json) (path : String)
    (h : schema.get? "enum" = none) : enumCheck data schema path = [] := by
  simp [enumCheck, h]

theorem constCheck_no_field (data schema : Json) (path : String)
    (h : schema.get? "const" = none) : constCheck data schema path = [] := by
  simp [constCheck, h]

theorem oneOfBlock_no_field (data schema : Json) (path : String)
    (h : schema.get? "oneOf" = none) : oneOfBlock data schema path = [] := by
  simp [oneOfBlock, h]

theorem anyOfBlock_no_field (data schema : Json) (path : String)
    (h : schema.get? "anyOf" = none) : anyOfBlock data schema path = [] := by
  simp [anyOfBlock, h]

theorem allOfBlock_no_field (data schema : Json) (path : String)
    (h : schema.get? "allOf" = none) : allOfBlock data schema path = [] := by
  simp [allOfBlock, h]

theorem typeBlock_no_field (data schema : Json) (path : String)
    (h : schema.get? "type" = none) : typeBlock data schema path = none := by
  simp [typeBlock, h]

/-- C1: the equality backing `enum`/`const`/`uniqueItems` is NOT
order-insensitive on object keys: the validator compares raw
`JSON.stringify` output, so `{"a":1,"b":2}` fails a `const` of
`{"b":2,"a":1}` even though the two objects hold the same key-value
pairs. -/
theorem const_rejects_reordered_object :
    validateAgainstSchema
      (Json.obj [("a", Json.num 1), ("b", Json.num 2)])
      (Json.obj [("const", Json.obj [("b", Json.num 2), ("a", Json.num 1)])]) "" ≠ [] := by
  simp [validateAgainstSchema, typeBlock, requiredCheck, arrayBlock, arrayChecks,
    stringBlock, stringChecks, numberBlock, numberChecks, enumCheck, constCheck, propertiesBlock, itemsBlock,
    oneOfBlock, anyOfBlock, allOfBlock, Json.get?, stringify, escapeJsonString,
    jsNumToString]
  decide

/-- C1 (amended): the structural equality used by the `enum`, `const` and
`uniqueItems` checks is equality of `JSON.stringify` serialized forms with
object keys in insertion order, hence order-sensitive: a value matches a
`const` constant (or an `enum` candidate) iff their serialized forms are
identical, and two array elements whose serializations differ only in
object-key order do not count as duplicates under `uniqueItems`. -/
theorem serialized_equality_order_sensitive :
    (∀ (v c : Json) (path : String),
      validateAgainstSchema v (Json.obj [("const", c)]) path
        = (if stringify v == stringify c then []
           else [⟨path, "Value must be exactly: " ++ stringify c ++ ". Got: "
                  ++ stringify v, some v⟩]))
    ∧ (∀ (v : Json) (vs : List Json) (path : String),
      validateAgainstSchema v (Json.obj [("enum", Json.arr vs)]) path
        = (if vs.any (fun cand => stringify cand == stringify v) then []
           else [⟨path, "Value must be one of: "
                  ++ String.intercalate ", " (vs.map stringify)
                  ++ ". Got: " ++ stringify v, some v⟩]))
    ∧ validateAgainstSchema
        (Json.arr [Json.obj [("a", Json.num 1), ("b", Json.num 2)],
                   Json.obj [("b", Json.num 2), ("a", Json.num 1)]])
        (Json.obj [("uniqueItems", Json.bool true)]) "" = [] := by
  refine ⟨fun v c path => ?_, fun v vs path => ?_, ?_⟩
  · cases v <;>
      simp +decide [validateAgainstSchema, typeBlock, requiredCheck, arrayBlock, arrayChecks,
        stringBlock, stringChecks, numberBlock, numberChecks, enumCheck, constCheck, propertiesBlock,
        itemsBlock, oneOfBlock, anyOfBlock, allOfBlock, Json.get?, List.find?]
  · cases v <;>
      simp +decide [validateAgainstSchema, typeBlock, requiredCheck, arrayBlock, arrayChecks,
        stringBlock, stringChecks, numberBlock, numberChecks, enumCheck, constCheck, propertiesBlock,
        itemsBlock, oneOfBlock, anyOfBlock, allOfBlock, Json.get?, List.find?]
  · simp +decide [validateAgainstSchema, typeBlock, requiredCheck, arrayBlock, arrayChecks,
      stringBlock, stringChecks, numberBlock, numberChecks, enumCheck, constCheck, propertiesBlock,
      itemsBlock, oneOfBlock, anyOfBlock, allOfBlock, Json.get?, List.find?,
      dupIndices, stringify, escapeJsonString, jsNumToString]

/-- C2: a present `maxItems` of `0` does NOT trigger the length check: the
source guards with JavaScript truthiness (`schema.maxItems && ...`), so
`[1]` against `{"maxItems": 0}` — length 1 exceeding the bound — yields no
error, contradicting the claim that the check fires whenever the field is
present, including `maxItems = 0`. -/
theorem maxItems_zero_not_checked :
    validateAgainstSchema (Json.arr [Json.num 1])
      (Json.obj [("maxItems", Json.num 0)]) "" = [] := by
  simp +decide [validateAgainstSchema, typeBlock, requiredCheck, arrayBlock, arrayChecks,
    stringBlock, stringChecks, numberBlock, numberChecks, enumCheck, constCheck, propertiesBlock, itemsBlock,
    oneOfBlock, anyOfBlock, allOfBlock, Json.get?, List.find?, truthyJson,
    jsToNumber?]

/-- C2 (amended): for an array value and numeric `minItems`/`maxItems`
fields, the bound checks run only when the field value is truthy
(non-zero): then a length below `minItems` appends exactly one
"Array too short" error and a length above `maxItems` exactly one
"Array too long" error, both at the current path and in that order; a
present bound of `0` performs no check. -/
theorem array_bounds_when_truthy (xs : List Json) (path : String) (mn mx : ℚ)
    (hmn : mn ≠ 0) (hmx : mx ≠ 0) :
    validateAgainstSchema (Json.arr xs)
      (Json.obj [("minItems", Json.num mn), ("maxItems", Json.num mx)]) path
    = (if (xs.length : ℚ) < mn then
        [⟨path, "Array too short. Minimum items: " ++ jsNumToString mn ++ ", got "
           ++ toString xs.length, some (Json.arr xs)⟩] else [])
      ++ (if (xs.length : ℚ) > mx then
        [⟨path, "Array too long. Maximum items: " ++ jsNumToString mx ++ ", got "
           ++ toString xs.length, some (Json.arr xs)⟩] else []) := by
  simp +decide [validateAgainstSchema, typeBlock, requiredCheck, arrayBlock, arrayChecks,
    stringBlock, stringChecks, numberBlock, numberChecks, enumCheck, constCheck, propertiesBlock, itemsBlock,
    oneOfBlock, anyOfBlock, allOfBlock, Json.get?, List.find?, truthyJson,
    jsToNumber?, jsToString, hmn, hmx]

theorem array_bounds_when_truthy_witness :
    validateAgainstSchema (Json.arr [Json.num 1, Json.num 2])
      (Json.obj [("minItems", Json.num 1), ("maxItems", Json.num 1)]) ""
    = [⟨"", "Array too long. Maximum items: 1, got 2",
         some (Json.arr [Json.num 1, Json.num 2])⟩] := by
  rw [array_bounds_when_truthy _ _ 1 1 (by norm_num) (by norm_num)]
  norm_num [jsNumToString]
  decide

/-- C3: when the schema's `type` field is present (and truthy, as the source
guard requires) and the value fails the type check — wrong classified type,
or a non-numeric or non-integral value against `integer`/`number` — the
call appends exactly that one error and returns early: no other constraint
category contributes anything at this invocation. -/
theorem type_mismatch_early_return (data schema : Json) (path : String)
    (t : Json) (e : VError)
    (h1 : schema.get? "type" = some t)
    (h2 : truthyJson t = true)
    (h3 : typeCheckErr data t path = some e) :
    validateAgainstSchema data schema path = [e] := by
  have htb : typeBlock data schema path = some e := by
    simp [typeBlock, h1, h2, h3]
  revert htb
  cases data <;> intro htb <;> simp [validateAgainstSchema, htb]

theorem type_mismatch_early_return_witness :
    validateAgainstSchema (Json.str "x")
      (Json.obj [("type", Json.str "integer"), ("minLength", Json.num 5)]) ""
    = [⟨"", "Expected integer, got string", some (Json.str "x")⟩] := by
  exact type_mismatch_early_return (Json.str "x") _ "" (Json.str "integer")
    ⟨"", "Expected integer, got string", some (Json.str "x")⟩
    (by simp +decide [Json.get?, List.find?])
    (by decide)
    (by simp [typeCheckErr, getJsonType])

/-- C4: for a schema carrying a `oneOf` list, the validator counts the
subschemas whose isolated run yields zero errors; exactly one match appends
nothing, any other count (zero, or two or more) appends exactly one error at
the current path whose message states how many matched — in particular two
matching subschemas yield one "Matched 2 schemas." error. -/
theorem oneOf_counts_matching_subschemas (data : Json) (subs : List Json)
    (path : String) :
    validateAgainstSchema data (Json.obj [("oneOf", Json.arr subs)]) path
    = (if (subs.filter
            (fun s => (validateAgainstSchema data s path).length == 0)).length == 1
       then []
       else [⟨path, "Data must match exactly one schema. Matched "
              ++ toString (subs.filter
                  (fun s => (validateAgainstSchema data s path).length == 0)).length
              ++ " schemas.", some data⟩]) := by
  rw [validate_eq_blocks _ _ _
        (typeBlock_no_field _ _ _ (by simp +decide [Json.get?, List.find?])),
      requiredCheck_no_field _ _ _ (by simp +decide [Json.get?, List.find?]),
      propertiesBlock_no_field _ _ _ (by simp +decide [Json.get?, List.find?]),
      itemsBlock_no_field _ _ _ (by simp +decide [Json.get?, List.find?]),
      arrayBlock_no_fields _ _ _ (by simp +decide [Json.get?, List.find?])
        (by simp +decide [Json.get?, List.find?])
        (by simp +decide [Json.get?, List.find?]),
      stringBlock_no_fields _ _ _ (by simp +decide [Json.get?, List.find?])
        (by simp +decide [Json.get?, List.find?])
        (by simp +decide [Json.get?, List.find?])
        (by simp +decide [Json.get?, List.find?]),
      numberBlock_no_fields _ _ _ (by simp +decide [Json.get?, List.find?])
        (by simp +decide [Json.get?, List.find?])
        (by simp +decide [Json.get?, List.find?])
        (by simp +decide [Json.get?, List.find?])
        (by simp +decide [Json.get?, List.find?]),
      enumCheck_no_field _ _ _ (by simp +decide [Json.get?, List.find?]),
      constCheck_no_field _ _ _ (by simp +decide [Json.get?, List.find?]),
      anyOfBlock_no_field _ _ _ (by simp +decide [Json.get?, List.find?]),
      allOfBlock_no_field _ _ _ (by simp +decide [Json.get?, List.find?])]
  have ho : (Json.obj [("oneOf", Json.arr subs)]).get? "oneOf"
      = some (Json.arr subs) := by
    simp [Json.get?, List.find?]
  simp only [oneOfBlock, matchedCount_eq_filter]
  split
  · rename_i subs1 heq
    rw [ho] at heq
    simp at heq
    subst heq
    simp
  · rename_i hne
    exact absurd ho (by simp_all)

/-- C5: the claim's general clause — one missing-property error for EACH
listed name absent from the value's keys — fails on the code: the source
tests `prop in data`, and JavaScript's `in` sees the properties every
parsed object inherits from `Object.prototype`, so `"toString"`, though
absent from the empty object's keys, is never reported missing:
`validate({}, {"required":["toString"]})` returns no errors. -/
theorem required_inherited_name_never_missing :
    validateAgainstSchema (Json.obj [])
      (Json.obj [("required", Json.arr [Json.str "toString"])]) "" = [] := by
  simp +decide [validateAgainstSchema, typeBlock, requiredCheck, arrayBlock,
    arrayChecks, stringBlock, stringChecks, numberBlock, numberChecks,
    enumCheck, constCheck, propertiesBlock, itemsBlock, oneOfBlock, anyOfBlock,
    allOfBlock, Json.get?, List.find?, jsInObj, objectPrototypeKeys, jsToString]

/-- C5 (amended): `validate({"a":1}, {"type":"object","required":["a","b"]})`
returns exactly one error — missing property `b`, at path `"b"` (no leading
dot at the root) and with `value` undefined.  In general, for a plain-object
value and a schema whose only constraint is a `required` list, the errors
are exactly one missing-property error at `path.propName` per listed name
for which JavaScript's `in` test fails — i.e. per name that is neither one
of the value's own keys nor a property inherited from `Object.prototype`
(`jsInObj`) — in list order; names such as `"toString"` are never reported
missing. -/
theorem required_missing_own_properties :
    (validateAgainstSchema (Json.obj [("a", Json.num 1)])
      (Json.obj [("type", Json.str "object"),
                 ("required", Json.arr [Json.str "a", Json.str "b"])]) ""
      = [⟨"b", "Missing required property: b", none⟩])
    ∧ ∀ (kvs : List (String × Json)) (reqs : List String) (path : String),
      validateAgainstSchema (Json.obj kvs)
        (Json.obj [("required", Json.arr (reqs.map Json.str))]) path
      = reqs.filterMap (fun prop =>
          if jsInObj kvs prop then none
          else some ⟨childPath path prop, "Missing required property: " ++ prop,
                 none⟩) := by
  constructor
  · simp +decide [validateAgainstSchema, typeBlock, requiredCheck, arrayBlock,
      arrayChecks, stringBlock, stringChecks, numberBlock, numberChecks,
      enumCheck, constCheck, propertiesBlock, itemsBlock, oneOfBlock, anyOfBlock,
      allOfBlock, Json.get?, List.find?, typeCheckErr, getJsonType, truthyJson,
      childPath, jsToString, List.filterMap, jsInObj, objectPrototypeKeys]
  · intro kvs reqs path
    rw [validate_eq_blocks _ _ _
          (typeBlock_no_field _ _ _ (by simp +decide [Json.get?, List.find?])),
        propertiesBlock_no_field _ _ _ (by simp +decide [Json.get?, List.find?]),
        itemsBlock_no_field _ _ _ (by simp +decide [Json.get?, List.find?]),
        arrayBlock_no_fields _ _ _ (by simp +decide [Json.get?, List.find?])
          (by simp +decide [Json.get?, List.find?])
          (by simp +decide [Json.get?, List.find?]),
        stringBlock_no_fields _ _ _ (by simp +decide [Json.get?, List.find?])
          (by simp +decide [Json.get?, List.find?])
          (by simp +decide [Json.get?, List.find?])
          (by simp +decide [Json.get?, List.find?]),
        numberBlock_no_fields _ _ _ (by simp +decide [Json.get?, List.find?])
          (by simp +decide [Json.get?, List.find?])
          (by simp +decide [Json.get?, List.find?])
          (by simp +decide [Json.get?, List.find?])
          (by simp +decide [Json.get?, List.find?]),
        enumCheck_no_field _ _ _ (by simp +decide [Json.get?, List.find?]),
        constCheck_no_field _ _ _ (by simp +decide [Json.get?, List.find?]),
        oneOfBlock_no_field _ _ _ (by simp +decide [Json.get?, List.find?]),
        anyOfBlock_no_field _ _ _ (by simp +decide [Json.get?, List.find?]),
        allOfBlock_no_field _ _ _ (by simp +decide [Json.get?, List.find?])]
    have hr : (Json.obj [("required", Json.arr (reqs.map Json.str))]).get? "required"
        = some (Json.arr (reqs.map Json.str)) := by
      simp [Json.get?, List.find?]
    simp only [requiredCheck, hr, List.append_nil, List.nil_append]
    clear hr
    induction reqs with
    | nil => simp
    | cons r rest ih =>
      have hhead : jsInObj kvs (jsToString (Json.str r)) = jsInObj kvs r := by
        simp [jsToString]
      simp only [List.map_cons, List.filterMap_cons, hhead, jsToString, ih]

/-- C6: the empty schema `{}` — a schema object with no recognized fields —
validates every JSON value with an empty error list. -/
theorem empty_schema_accepts_everything (v : Json) (path : String) :
    validateAgainstSchema v (Json.obj []) path = [] := by
  cases v <;> simp [validateAgainstSchema, typeBlock, requiredCheck, arrayBlock,
    arrayChecks, stringBlock, stringChecks, numberBlock, numberChecks, enumCheck,
    constCheck, propertiesBlock, itemsBlock, oneOfBlock, anyOfBlock, allOfBlock,
    Json.get?]

/-- C7: search honours the case-sensitivity flag: with `caseSensitive =
false` the term and each key/string form are compared lower-cased, so
searching `"k"` in `{"K":"V"}` yields the Key-kind hit for `"K"` (at path
`"K"`, position 0); with `caseSensitive = true` the comparison is verbatim
and the same search yields no results. -/
theorem search_case_sensitivity :
    performSearch "k" (Json.obj [("K", Json.str "V")]) false
      = [⟨"K", ResKind.key, "K", 0⟩]
    ∧ performSearch "k" (Json.obj [("K", Json.str "V")]) true = [] := by
  constructor
  · simp [performSearch, searchLoop, jsToString, normCase]
    decide
  · simp [performSearch, searchLoop, jsToString, normCase]
    decide

/-- C8: on `{"a":[1,2,3]}` the metrics pass counts 5 nodes (the root
object, the array, and the three numbers — one count per node regardless of
type) and reports a maximum depth of 2, the root being at depth 0. -/
theorem metrics_on_example :
    countNodes (Json.obj [("a", Json.arr [Json.num 1, Json.num 2, Json.num 3])]) = 5
    ∧ getMaxDepth (Json.obj [("a", Json.arr [Json.num 1, Json.num 2, Json.num 3])]) = 2 := by
  constructor
  · simp [countNodes, countLoop]
  · simp [getMaxDepth, depthLoop]

theorem distSum_bump (d : List (String × Nat)) (k : String) :
    distSum (bump d k) = distSum d + 1 := by
  induction d with
  | nil => simp [bump, distSum]
  | cons p rest ih =>
      by_cases h : p.1 == k
      · simp [bump, distSum, h]
        omega
      · simp [bump, distSum, h] at ih ⊢
        omega

theorem countLoop_shift (st : List Json) (n : Nat) :
    countLoop st n = n + countLoop st 0 := by
  have H : ∀ (a : List Json) (b : Nat), ∀ m, countLoop a m = m + countLoop a 0 := by
    intro a b
    induction a, b using countLoop.induct with
    | case1 n => intro m; simp [countLoop]
    | case2 rest n xs ih =>
        intro m
        have h1 := ih (m + 1)
        have h2 := ih 1
        simp only [countLoop, Nat.zero_add]
        omega
    | case3 rest n kvs ih =>
        intro m
        have h1 := ih (m + 1)
        have h2 := ih 1
        simp only [countLoop, Nat.zero_add]
        omega
    | case4 rest n prim harr hobj ih =>
        intro m
        have h1 := ih (m + 1)
        have h2 := ih 1
        cases prim with
        | arr xs => exact absurd rfl (harr xs)
        | obj kvs => exact absurd rfl (hobj kvs)
        | null => simp only [countLoop, Nat.zero_add]; omega
        | bool b => simp only [countLoop, Nat.zero_add]; omega
        | num q => simp only [countLoop, Nat.zero_add]; omega
        | str s => simp only [countLoop, Nat.zero_add]; omega
  exact H st n n

theorem distLoop_sum (a : List Json) (d : List (String × Nat)) :
    distSum (distLoop a d) = distSum d + countLoop a 0 := by
  induction a, d using distLoop.induct with
  | case1 dist => simp [distLoop, countLoop, distSum]
  | case2 rest dist xs ih =>
      simp only [distLoop, countLoop, Nat.zero_add]
      rw [ih, distSum_bump, countLoop_shift (xs.reverse ++ rest) 1]
      omega
  | case3 rest dist kvs ih =>
      simp only [distLoop, countLoop, Nat.zero_add]
      rw [ih, distSum_bump,
        countLoop_shift ((List.map (fun p => p.2) kvs).reverse ++ rest) 1]
      omega
  | case4 rest dist prim harr hobj ih =>
      cases prim with
      | arr xs => exact absurd rfl (harr xs)
      | obj kvs => exact absurd rfl (hobj kvs)
      | null =>
          simp only [distLoop, countLoop, Nat.zero_add]
          rw [ih, distSum_bump, countLoop_shift rest 1]
          omega
      | bool b =>
          simp only [distLoop, countLoop, Nat.zero_add]
          rw [ih, distSum_bump, countLoop_shift rest 1]
          omega
      | num q =>
          simp only [distLoop, countLoop, Nat.zero_add]
          rw [ih, distSum_bump, countLoop_shift rest 1]
          omega
      | str s =>
          simp only [distLoop, countLoop, Nat.zero_add]
          rw [ih, distSum_bump, countLoop_shift rest 1]
          omega

/-- C9: the per-type counts of `getTypeDistribution` sum to exactly
`countNodes`: the two stack traversals pop the same multiset of nodes and
every popped node bumps exactly one type tag. -/
theorem distribution_sum_eq_nodeCount (j : Json) :
    distSum (getTypeDistribution j) = countNodes j := by
  have h := distLoop_sum [j] []
  simpa [getTypeDistribution, countNodes, distSum] using h

/-- A JSON value that the search loop treats as a leaf: not an array and
not an object (`typeof value !== "object" || value === null`). -/
def isPrimitive : Json → Bool
  | .arr _ => false
  | .obj _ => false
  | _ => true

/-- `NodeAt root p v`: the node `v` sits in the tree `root` at the path
whose segments are `p` (array indices rendered in decimal, object keys
verbatim) — the path vocabulary `performSearch` accumulates. -/
inductive NodeAt : Json → List String → Json → Prop where
  | root (j : Json) : NodeAt j [] j
  | arrChild {r : Json} {p : List String} {xs : List Json} {i : Nat} {x : Json} :
      NodeAt r p (Json.arr xs) → (i, x) ∈ xs.enum → NodeAt r (p ++ [toString i]) x
  | objChild {r : Json} {p : List String} {kvs : List (String × Json)}
      {k : String} {v : Json} :
      NodeAt r p (Json.obj kvs) → (k, v) ∈ kvs → NodeAt r (p ++ [k]) v

/-- The shape invariant of search results over the input `root`: a
Value-kind hit is the `String` form of a primitive node at its path — never
of an array or object — and a Key-kind hit is a key of an object node, at
the object's path extended by that key. -/
def ResultOK (root : Json) (r : SearchResult) : Prop :=
  (r.type = ResKind.value → ∃ p v, NodeAt root p v ∧ isPrimitive v = true
      ∧ r.path = String.intercalate "." p ∧ r.text = jsToString v)
  ∧ (r.type = ResKind.key → ∃ p kvs k v, NodeAt root p (Json.obj kvs) ∧ (k, v) ∈ kvs
      ∧ r.path = String.intercalate "." (p ++ [k]) ∧ r.text = k)

theorem foldl_preserves_OK {α : Type} (P : SearchResult → Prop)
    (step : List SearchResult → α → List SearchResult) :
    ∀ (l : List α),
      (∀ (res : List SearchResult) (x : α), x ∈ l →
        (∀ r ∈ res, P r) → ∀ r ∈ step res x, P r) →
      ∀ (res : List SearchResult), (∀ r ∈ res, P r) →
      ∀ r ∈ l.foldl step res, P r := by
  intro l
  induction l with
  | nil =>
    intro _ res h r hr
    exact h r hr
  | cons x xs ih =>
    intro hstep res h
    exact ih (fun res' y hy => hstep res' y (List.mem_cons_of_mem x hy))
      (step res x) (hstep res x (List.mem_cons_self x xs) h)

theorem searchLoop_results_OK (cs : Bool) (term : String) (root : Json) :
    ∀ (st : List (Json × List String)) (res : List SearchResult),
      (∀ e ∈ st, NodeAt root e.2 e.1) → (∀ r ∈ res, ResultOK root r) →
      ∀ r ∈ searchLoop cs term st res, ResultOK root r := by
  intro st res
  induction st, res using searchLoop.induct cs term with
  | case1 results =>
    intro hst hres
    simpa [searchLoop] using hres
  | case2 currentPath rest results xs ih =>
    intro hst hres
    simp only [searchLoop]
    apply ih _ hres
    intro e he
    rcases List.mem_append.mp he with he | he
    · rw [List.mem_reverse] at he
      rcases List.mem_map.mp he with ⟨⟨i, x⟩, hmem, rfl⟩
      exact NodeAt.arrChild (hst (Json.arr xs, currentPath) (List.mem_cons_self _ _)) hmem
    · exact hst e (List.mem_cons_of_mem _ he)
  | case3 currentPath rest results kvs nres ih =>
    intro hst hres
    simp only [searchLoop]
    have hobj : NodeAt root currentPath (Json.obj kvs) :=
      hst (Json.obj kvs, currentPath) (List.mem_cons_self _ _)
    apply ih
    · intro e he
      rcases List.mem_append.mp he with he | he
      · rw [List.mem_reverse] at he
        rcases List.mem_map.mp he with ⟨⟨k, v⟩, hmem, rfl⟩
        exact NodeAt.objChild hobj hmem
      · exact hst e (List.mem_cons_of_mem _ he)
    · apply foldl_preserves_OK (ResultOK root) _ kvs
      · intro res' p hp hres' r hr
        split at hr
        · rcases List.mem_append.mp hr with hr | hr
          · exact hres' r hr
          · rcases List.mem_singleton.mp hr with rfl
            constructor
            · intro hty
              simp at hty
            · intro _
              exact ⟨currentPath, kvs, p.1, p.2, hobj, hp, rfl, rfl⟩
        · exact hres' r hr
      · exact hres
  | case4 currentPath rest results prim harr hobj hinc ih =>
    intro hst hres
    have hnode : NodeAt root currentPath prim :=
      hst (prim, currentPath) (List.mem_cons_self _ _)
    have hrest : ∀ e ∈ rest, NodeAt root e.2 e.1 :=
      fun e he => hst e (List.mem_cons_of_mem _ he)
    have hprim : isPrimitive prim = true := by
      cases prim with
      | arr xs => exact absurd rfl (harr xs)
      | obj kvs => exact absurd rfl (hobj kvs)
      | null => rfl
      | bool b => rfl
      | num q => rfl
      | str s => rfl
    have hnew : ∀ r ∈ results ++
        [⟨String.intercalate "." currentPath, ResKind.value, jsToString prim,
           results.length⟩], ResultOK root r := by
      intro r hr
      rcases List.mem_append.mp hr with hr | hr
      · exact hres r hr
      · rcases List.mem_singleton.mp hr with rfl
        constructor
        · intro _
          exact ⟨currentPath, prim, hnode, hprim, rfl, rfl⟩
        · intro hty
          simp at hty
    cases prim with
    | arr xs => exact absurd rfl (harr xs)
    | obj kvs => exact absurd rfl (hobj kvs)
    | null =>
      simp only [searchLoop]
      split
      · exact ih hrest hnew
      · rename_i hcon
        exact absurd hinc hcon
    | bool b =>
      simp only [searchLoop]
      split
      · exact ih hrest hnew
      · rename_i hcon
        exact absurd hinc hcon
    | num q =>
      simp only [searchLoop]
      split
      · exact ih hrest hnew
      · rename_i hcon
        exact absurd hinc hcon
    | str s =>
      simp only [searchLoop]
      split
      · exact ih hrest hnew
      · rename_i hcon
        exact absurd hinc hcon
  | case5 currentPath rest results prim harr hobj hninc ih =>
    intro hst hres
    have hrest : ∀ e ∈ rest, NodeAt root e.2 e.1 :=
      fun e he => hst e (List.mem_cons_of_mem _ he)
    cases prim with
    | arr xs => exact absurd rfl (harr xs)
    | obj kvs => exact absurd rfl (hobj kvs)
    | null =>
      simp only [searchLoop]
      split
      · rename_i hcon
        exact absurd hcon hninc
      · exact ih hrest hres
    | bool b =>
      simp only [searchLoop]
      split
      · rename_i hcon
        exact absurd hcon hninc
      · exact ih hrest hres
    | num q =>
      simp only [searchLoop]
      split
      · rename_i hcon
        exact absurd hcon hninc
      · exact ih hrest hres
    | str s =>
      simp only [searchLoop]
      split
      · rename_i hcon
        exact absurd hcon hninc
      · exact ih hrest hres

/-- C10: every Value-kind result of `performSearch` comes from a primitive
node of the input — its text is the `String` form of a node that is neither
an array nor an object, at the result's path — so container values never
produce Value-kind hits; and every Key-kind result is a key of some object
node of the input, at the object's path extended by that key. -/
theorem value_results_from_primitives (data : Json) (term : String) (cs : Bool)
    (r : SearchResult) (hr : r ∈ performSearch term data cs) : ResultOK data r := by
  simp only [performSearch] at hr
  split at hr
  · simp at hr
  · exact searchLoop_results_OK cs (normCase cs term) data [(data, [])] []
      (by
        intro e he
        rcases List.mem_singleton.mp he with rfl
        exact NodeAt.root data)
      (by
        intro r' hr'
        simp at hr')
      r hr

theorem value_results_from_primitives_witness :
    ResultOK (Json.obj [("a", Json.str "hello")])
      ⟨"a", ResKind.value, "hello", 0⟩ := by
  apply value_results_from_primitives (Json.obj [("a", Json.str "hello")]) "hello" false
  simp [performSearch, searchLoop, jsToString, normCase]
  decide
